import Mathlib

/-
Verification development for the pg-mcp PostgreSQL MCP server.

The embedded program is the Go source of the server (current version:
the file providing ListTables, DescribeTable and the schema-fallback
ExecuteQuery).  Pure string manipulation is translated to Lean functions
on String and List Char; the database driver is modelled as an oracle
record of functions; the sequence of database round-trips issued by a
handler is made explicit as a trace of operations.
-/

/-! ## Go string primitives

Character classes follow the Go regexp (RE2) ASCII definitions used by
the patterns of isSafeQuery, and the ASCII fragment of strings.ToLower
and strings.TrimSpace.  The queries and patterns of this program are
ASCII, so the Unicode-only cases of the Go functions are not exercised.
-/

/-- Word character of the RE2 word-boundary assertion: [0-9A-Za-z_]. -/
def goWordChar (c : Char) : Bool :=
  c.isAlpha || c.isDigit || c = '_'

/-- Whitespace of the RE2 Perl class backslash-s: tab, newline, form feed,
carriage return, space. -/
def goRegexSpace (c : Char) : Bool :=
  c = ' ' || c = '\t' || c = '\n' || c = '\x0c' || c = '\x0d'

/-- Whitespace trimmed by strings.TrimSpace (ASCII fragment of
unicode.IsSpace): tab, newline, vertical tab, form feed, carriage
return, space. -/
def goTrimChar (c : Char) : Bool :=
  c = ' ' || c = '\t' || c = '\n' || c = '\x0b' || c = '\x0c' || c = '\x0d'

/-- strings.ToLower, on the ASCII fragment used by this program. -/
def goToLower (s : String) : String :=
  String.mk (s.data.map Char.toLower)

/-- strings.TrimSpace, on the ASCII fragment used by this program. -/
def goTrimSpace (s : String) : String :=
  String.mk (((s.data.dropWhile goTrimChar).reverse.dropWhile goTrimChar).reverse)

/-- strings.HasPrefix. -/
def goHasPre (s pre : String) : Bool :=
  pre.data.isPrefixOf s.data

/-- Substring search on character lists (helper for strings.Contains). -/
def subSearch (needle : List Char) : List Char → Bool
  | [] => needle.isPrefixOf []
  | c :: cs => needle.isPrefixOf (c :: cs) || subSearch needle cs

/-- strings.Contains. -/
def goContains (s sub : String) : Bool :=
  subSearch sub.data s.data

/-! ## The regular expressions of isSafeQuery

Every pattern in the denylist of isSafeQuery is built from word
boundaries, literal words, one-or-more-whitespace, and a dot-star.
We embed exactly this fragment of RE2 and an unanchored boolean search,
which is what regexp.MatchString computes. -/

/-- One token of a denylist pattern: word boundary, literal characters,
one or more whitespace characters, or dot-star (any characters other
than newline, zero or more). -/
inductive RTok where
  | wb
  | lit (l : List Char)
  | ws1
  | anyStar
deriving DecidableEq

/-- Whether an optional character counts as a word character (absence of
a character, at either end of the text, is non-word). -/
def wordOpt : Option Char → Bool
  | some c => goWordChar c
  | none => false

/-- Consume a literal from the front of the text, tracking the last
consumed character (the character preceding the rest of the text). -/
def dropLit : List Char → Option Char → List Char → Option (Option Char × List Char)
  | [], prev, cs => some (prev, cs)
  | _ :: _, _, [] => none
  | a :: l, _, c :: cs => if a = c then dropLit l (some c) cs else none

/-- Try the continuation after consuming one or more whitespace
characters (the backslash-s-plus token). -/
def afterSpaces1 (k : Option Char → List Char → Bool) : List Char → Bool
  | [] => false
  | c :: cs => goRegexSpace c && (k (some c) cs || afterSpaces1 k cs)

/-- Try the continuation after consuming zero or more non-newline
characters (the dot-star token). -/
def afterAnyStar (k : Option Char → List Char → Bool) (prev : Option Char) : List Char → Bool
  | [] => k prev []
  | c :: cs => k prev (c :: cs) || (decide (c ≠ '\n') && afterAnyStar k (some c) cs)

/-- Match a token sequence against a prefix of the text; prev is the
character immediately before the current position (none at the start of
the text).  Trailing text may remain: the caller performs an unanchored
search. -/
def matchToks : List RTok → Option Char → List Char → Bool
  | [], _, _ => true
  | RTok.wb :: ts, prev, cs => (wordOpt prev != wordOpt cs.head?) && matchToks ts prev cs
  | RTok.lit l :: ts, prev, cs =>
    match dropLit l prev cs with
    | some (p, rest) => matchToks ts p rest
    | none => false
  | RTok.ws1 :: ts, _, cs => afterSpaces1 (matchToks ts) cs
  | RTok.anyStar :: ts, prev, cs => afterAnyStar (matchToks ts) prev cs

/-- Unanchored search: the token sequence matches starting at some
position of the text. -/
def searchToks (ts : List RTok) : Option Char → List Char → Bool
  | prev, [] => matchToks ts prev []
  | prev, c :: cs => matchToks ts prev (c :: cs) || searchToks ts (some c) cs

/-- regexp.MatchString for a denylist pattern. -/
def reMatch (ts : List RTok) (s : String) : Bool :=
  searchToks ts none s.data

/-! ## The policy validator (isSafeQuery) -/

/-- The denylist of isSafeQuery: each entry is the Go pattern source
string (used verbatim in the rejection message) paired with its token
sequence, in the order of the Go slice dangerousPatterns. -/
def dangerousPatterns : List (String × List RTok) :=
  [ ("\\bdrop\\s+table\\b",
      [RTok.wb, RTok.lit ("drop".data), RTok.ws1, RTok.lit ("table".data), RTok.wb]),
    ("\\bdrop\\s+database\\b",
      [RTok.wb, RTok.lit ("drop".data), RTok.ws1, RTok.lit ("database".data), RTok.wb]),
    ("\\bdrop\\s+schema\\b",
      [RTok.wb, RTok.lit ("drop".data), RTok.ws1, RTok.lit ("schema".data), RTok.wb]),
    ("\\btruncate\\b",
      [RTok.wb, RTok.lit ("truncate".data), RTok.wb]),
    ("\\bdelete\\s+from\\b",
      [RTok.wb, RTok.lit ("delete".data), RTok.ws1, RTok.lit ("from".data), RTok.wb]),
    ("\\bupdate\\s+.*\\s+set\\b",
      [RTok.wb, RTok.lit ("update".data), RTok.ws1, RTok.anyStar, RTok.ws1,
        RTok.lit ("set".data), RTok.wb]),
    ("\\binsert\\s+into\\b",
      [RTok.wb, RTok.lit ("insert".data), RTok.ws1, RTok.lit ("into".data), RTok.wb]),
    ("\\balter\\s+table\\b",
      [RTok.wb, RTok.lit ("alter".data), RTok.ws1, RTok.lit ("table".data), RTok.wb]),
    ("\\bcreate\\s+table\\b",
      [RTok.wb, RTok.lit ("create".data), RTok.ws1, RTok.lit ("table".data), RTok.wb]),
    ("\\bgrant\\b",
      [RTok.wb, RTok.lit ("grant".data), RTok.wb]),
    ("\\brevoke\\b",
      [RTok.wb, RTok.lit ("revoke".data), RTok.wb]) ]

/-- Rejection message for a denylist hit, with the pattern source text
interpolated as in the Go fmt.Errorf call. -/
def dangerMsg (pat : String) : String :=
  "query contains potentially dangerous operation: " ++ pat

/-- Rejection message of the allowlist check. -/
def notReadMsg : String :=
  "only SELECT and CTE (WITH) queries are allowed"

/-- The normalization applied by isSafeQuery to its local copy of the
query: lower-case, then trim surrounding whitespace. -/
def normQ (query : String) : String :=
  goTrimSpace (goToLower query)

/-- The checks of isSafeQuery on the already-normalized text: denylist
scan in order, then the select/with allowlist check.  Returns none when
the query is allowed, or some rejection message. -/
def isSafeNorm (q : String) : Option String :=
  match dangerousPatterns.find? (fun p => reMatch p.2 q) with
  | some p => some (dangerMsg p.1)
  | none =>
    if goHasPre q ("select") || goHasPre q ("with") then none
    else some notReadMsg

/-- isSafeQuery: normalize a local copy of the query, then run the
checks.  The argument string itself is never altered. -/
def isSafeQuery (query : String) : Option String :=
  isSafeNorm (normQ query)

/-! ## Driver values and row normalization

A value scanned by the database/sql driver into an interface slot is one
of: nil, bool, int64, float64, string, time.Time, or a raw byte slice.
The float64 is modelled by its decimal rendering together with a
finiteness flag (encoding/json rejects non-finite floats); a time.Time
by its rendered form; a byte slice by the text its bytes spell (the Go
conversion string(b) reinterprets the same bytes as text). -/

inductive GoVal where
  | vNull
  | vBool (b : Bool)
  | vInt (n : Int)
  | vFloat (rendering : String) (finite : Bool)
  | vString (s : String)
  | vTime (t : String)
  | vBytes (bs : String)
deriving DecidableEq

/-- The normalization applied to each scanned value when building a row
map: a raw byte slice becomes its text form; every other value passes
through unchanged. -/
def normalizeVal : GoVal → GoVal
  | GoVal.vBytes bs => GoVal.vString bs
  | v => v

/-- Insertion into a Go map modelled as an association list: an existing
key is overwritten in place, a new key is appended. -/
def mapInsert {β : Type} (m : List (String × β)) (k : String) (v : β) : List (String × β) :=
  if m.any (fun p => p.1 == k) then m.map (fun p => if p.1 == k then (k, v) else p)
  else m ++ [(k, v)]

/-- The row-map construction loop of ExecuteQuery: iterate the column
names with their scanned values, storing the normalized value under the
column name.  rows.Scan guarantees one value per column, so the two
lists have equal length at every call site. -/
def buildRowMap (cols : List String) (vals : List GoVal) : List (String × GoVal) :=
  (cols.zip vals).foldl (fun m p => mapInsert m p.1 (normalizeVal p.2)) []

/-- The QueryResult struct serialized as the success response: column
names, accumulated row maps, and the row count. -/
structure QueryResult where
  columns : List String
  rows : List (List (String × GoVal))
  count : Nat
deriving DecidableEq

/-- Assembly of the QueryResult from the driver reply: one row map per
scanned row, count equal to the number of accumulated rows. -/
def buildResponse (cols : List String) (rows : List (List GoVal)) : QueryResult :=
  let results := rows.map (buildRowMap cols)
  { columns := cols, rows := results, count := results.length }

/-! ## JSON serialization (encoding/json, the fragment this program uses)

Key order of a marshalled Go map is sorted; struct fields appear in
declaration order.  String escaping is modelled for quote and backslash
(the control and HTML escapes of encoding/json are not exercised by the
claims).  A nil slice marshals to the literal null; a non-nil empty
slice marshals to an empty array. -/

def jsonQuote (s : String) : String :=
  String.mk ('"' :: (s.data.foldr
    (fun c acc => if c = '\\' || c = '"' then '\\' :: c :: acc else c :: acc) ['"']))

/-- JSON array from already-serialized elements. -/
def jsonArr (elems : List String) : String :=
  "[" ++ String.intercalate (",") elems ++ "]"

/-- Marshal of a Go slice variable that is only ever grown by append
from a nil zero value: when nothing was appended the slice is still nil
and marshals to the literal null, otherwise to an array. -/
def marshalAppendSlice (elems : List String) : String :=
  if elems.isEmpty then ("null") else jsonArr elems

/-- Insertion into a key-sorted association list (ordering of marshalled
Go map keys). -/
def insertByKey {β : Type} (p : String × β) : List (String × β) → List (String × β)
  | [] => [p]
  | q :: rest => if p.1 ≤ q.1 then p :: q :: rest else q :: insertByKey p rest

/-- Sort an association list by key, as encoding/json orders map keys. -/
def sortByKey {β : Type} (l : List (String × β)) : List (String × β) :=
  l.foldr insertByKey []

/-- A column descriptor map with the two fixed keys column and type (the
keys are already in sorted order). -/
def jsonColPair (c : String × String) : String :=
  "\x7b\"column\":" ++ jsonQuote c.1 ++ ",\"type\":" ++ jsonQuote c.2 ++ "\x7d"

/-- The schema snapshot: table name to its (column name, data type)
pairs, in catalog ordinal order per table. -/
abbrev SchemaInfo : Type :=
  List (String × List (String × String))

/-- Marshal of the schema snapshot map; per-table column slices are
append-built from nil, so an empty one marshals to null. -/
def marshalSchemaInfo (m : SchemaInfo) : String :=
  "\x7b" ++ String.intercalate (",")
    ((sortByKey m).map
      (fun e => jsonQuote e.1 ++ ":" ++ marshalAppendSlice (e.2.map jsonColPair)))
  ++ "\x7d"

/-- Marshal of one driver value inside a row map.  A non-finite float is
the one failure point of encoding/json on this value domain.  A raw byte
slice never reaches this function: every row value has been through
normalizeVal. -/
def jsonOfGoVal : GoVal → Except String String
  | GoVal.vNull => Except.ok ("null")
  | GoVal.vBool b => Except.ok (if b then ("true") else ("false"))
  | GoVal.vInt n => Except.ok (toString n)
  | GoVal.vFloat rendering finite =>
    if finite then Except.ok rendering
    else Except.error ("json: unsupported value: " ++ rendering)
  | GoVal.vString s => Except.ok (jsonQuote s)
  | GoVal.vTime t => Except.ok (jsonQuote t)
  | GoVal.vBytes bs => Except.ok (jsonQuote bs)

/-- Marshal of one row map (keys sorted as for every Go map). -/
def jsonOfRow (r : List (String × GoVal)) : Except String String :=
  ((sortByKey r).mapM (fun p => (jsonOfGoVal p.2).map (fun v => jsonQuote p.1 ++ ":" ++ v))).map
    (fun fields => "\x7b" ++ String.intercalate (",") fields ++ "\x7d")

/-- Marshal of the accumulated rows.  The results slice is created
non-nil with make, so zero rows marshal to an empty array. -/
def jsonOfRows (rs : List (List (String × GoVal))) : Except String String :=
  (rs.mapM jsonOfRow).map (fun l => jsonArr l)

/-- json.Marshal of the QueryResult response struct. -/
def goJsonMarshal (r : QueryResult) : Except String String :=
  (jsonOfRows r.rows).map
    (fun rowsJson =>
      "\x7b\"columns\":" ++ jsonArr (r.columns.map jsonQuote) ++
      ",\"rows\":" ++ rowsJson ++ ",\"count\":" ++ toString r.count ++ "\x7d")

/-! ## The database oracle and the tool handlers -/

/-- Oracle for the database driver, one field per distinct query the
program issues.  runQuery models db.QueryContext on the caller-supplied
SQL text: either a driver error message or the pair of the column names
returned by rows.Columns and the scanned rows, one GoVal per column per
row.  listTablesQ models the fixed catalog query for the table names of
the public schema.  describeQ models the catalog query for the
(column_name, data_type) rows of one table of the public schema, with
the table name passed as the bound parameter and the result ordered by
ordinal_position.  Scan failures of the catalog cursors are not
modelled; no claim concerns them. -/
structure Database where
  runQuery : String → Except String (List String × List (List GoVal))
  listTablesQ : Except String (List String)
  describeQ : String → Except String (List (String × String))

/-- One observable database round-trip issued while handling a request. -/
inductive DbOp where
  | userQuery (q : String)
  | catalogTables
  | catalogColumns (t : String)
deriving DecidableEq

/-- Caller-visible outcome of a tool handler: a text result
(mcp.NewToolResultText), a tool error result (mcp.NewToolResultError),
or a Go error returned from the handler itself. -/
inductive ToolResult where
  | ok (text : String)
  | toolError (text : String)
  | goError (msg : String)
deriving DecidableEq

/-- The per-table loop of getSchemaInfo: describe each listed table,
accumulating the snapshot map and the trace of catalog round-trips; a
describe failure aborts with a wrapped error. -/
def getSchemaCols (db : Database) :
    List String → SchemaInfo → List DbOp → Except String SchemaInfo × List DbOp
  | [], acc, ops => (Except.ok acc, ops)
  | t :: ts, acc, ops =>
    match db.describeQ t with
    | Except.error e =>
      (Except.error ("failed to describe table " ++ t ++ ": " ++ e),
        ops ++ [DbOp.catalogColumns t])
    | Except.ok cols => getSchemaCols db ts (mapInsert acc t cols) (ops ++ [DbOp.catalogColumns t])

/-- getSchemaInfo: list the public tables, then describe each; a failure
of the table-list query is fatal to the snapshot. -/
def getSchemaInfo (db : Database) : Except String SchemaInfo × List DbOp :=
  match db.listTablesQ with
  | Except.error e => (Except.error ("failed to list tables: " ++ e), [DbOp.catalogTables])
  | Except.ok tables => getSchemaCols db tables [] [DbOp.catalogTables]

/-- The schema-augmented error branch of ExecuteQuery: the query error
is reported together with the snapshot, or together with the snapshot
fetch failure when the fetch itself failed. -/
def schemaFallback (query e : String) :
    Except String SchemaInfo × List DbOp → ToolResult × List DbOp
  | (Except.error se, ops) =>
    (ToolResult.toolError ("Query failed: " ++ e ++ ". Also failed to fetch schema: " ++ se),
      DbOp.userQuery query :: ops)
  | (Except.ok info, ops) =>
    (ToolResult.toolError
      ("Query failed: " ++ e ++ "\n\nHere is the schema:\n" ++ marshalSchemaInfo info),
      DbOp.userQuery query :: ops)

/-- The response-serialization step of ExecuteQuery.  The Go code
discards the json.Marshal error, so a marshal failure yields a text
result whose body is the empty string. -/
def marshalStep (query : String) (r : QueryResult) : ToolResult × List DbOp :=
  match goJsonMarshal r with
  | Except.ok s => (ToolResult.ok s, [DbOp.userQuery query])
  | Except.error _ => (ToolResult.ok (""), [DbOp.userQuery query])

/-- The part of ExecuteQuery after the database round-trip: on a driver
error whose text mentions column or table, fall back to the schema
snapshot; on any other driver error report only the raw message; on
success build and serialize the QueryResult. -/
def execReply (db : Database) (query : String) :
    Except String (List String × List (List GoVal)) → ToolResult × List DbOp
  | Except.error e =>
    if goContains e ("column") || goContains e ("table") then
      schemaFallback query e (getSchemaInfo db)
    else (ToolResult.toolError ("Query failed: " ++ e), [DbOp.userQuery query])
  | Except.ok (cols, rows) => marshalStep query (buildResponse cols rows)

/-- The ExecuteQuery tool handler, with its trace of database
round-trips.  The argument is the query parameter of the request (none
when absent). -/
def executeQuery (db : Database) (arg : Option String) : ToolResult × List DbOp :=
  match arg with
  | none => (ToolResult.toolError ("Missing required parameter \x27query\x27"), [])
  | some query =>
    match isSafeQuery query with
    | some reason => (ToolResult.goError ("unsafe query: " ++ reason), [])
    | none => execReply db query (db.runQuery query)

/-- The ListTables tool handler: the table-name slice is append-built
from nil, so zero tables marshal to the literal null. -/
def listTables (db : Database) : ToolResult × List DbOp :=
  match db.listTablesQ with
  | Except.error e => (ToolResult.goError ("failed to list tables: " ++ e), [DbOp.catalogTables])
  | Except.ok ts => (ToolResult.ok (marshalAppendSlice (ts.map jsonQuote)), [DbOp.catalogTables])

/-- The DescribeTable tool handler: the column slice is append-built
from nil, so a table with no catalog rows marshals to the literal
null. -/
def describeTable (db : Database) (arg : Option String) : ToolResult × List DbOp :=
  match arg with
  | none => (ToolResult.toolError ("Missing required parameter \x27table\x27"), [])
  | some t =>
    match db.describeQ t with
    | Except.error e =>
      (ToolResult.goError ("failed to describe table: " ++ e), [DbOp.catalogColumns t])
    | Except.ok cols =>
      (ToolResult.ok (marshalAppendSlice (cols.map jsonColPair)), [DbOp.catalogColumns t])

/-! ## Sample database oracles for concrete evaluations -/

/-- A small healthy database: one table users with one integer column. -/
def dbSample : Database where
  runQuery := fun _ => Except.ok (["a"], [[GoVal.vInt 1]])
  listTablesQ := Except.ok ["users"]
  describeQ := fun _ => Except.ok [("id", "integer")]

/-- A database with an empty public schema; every table describes to no
rows and every user query fails. -/
def dbGhost : Database where
  runQuery := fun _ => Except.error ("boom")
  listTablesQ := Except.ok []
  describeQ := fun _ => Except.ok []

/-- A database whose one result value is a non-finite float, the value
domain point on which encoding/json fails. -/
def dbNaN : Database where
  runQuery := fun _ => Except.ok (["x"], [[GoVal.vFloat ("NaN") false]])
  listTablesQ := Except.ok []
  describeQ := fun _ => Except.ok []

/-- A database on which every user query fails with an error message
mentioning the word table. -/
def dbErrTable : Database where
  runQuery := fun _ => Except.error ("relation table missing")
  listTablesQ := Except.ok ["users"]
  describeQ := fun _ => Except.ok [("id", "integer")]

/-! ## Helper lemmas -/

/-- find? returns the element at the first index whose predicate
holds. -/
theorem find_first_hit {α : Type} (p : α → Bool) (l : List α) :
    ∀ (i : Nat) (hi : i < l.length),
      p (l.get ⟨i, hi⟩) = true →
      (∀ j (hj : j < l.length), j < i → p (l.get ⟨j, hj⟩) = false) →
      l.find? p = some (l.get ⟨i, hi⟩) := by
  induction l with
  | nil => intro i hi _ _; exact absurd hi (by simp)
  | cons a t ih =>
    intro i hi h1 h2
    cases i with
    | zero =>
      show List.find? p (a :: t) = some a
      exact List.find?_cons_of_pos t (show p a from h1)
    | succ i =>
      have ha : p a = false := h2 0 (by simp) (Nat.succ_pos i)
      rw [List.find?_cons_of_neg t (by simp [ha])]
      exact ih i (Nat.lt_of_succ_lt_succ hi) h1
        (fun j hj hji => h2 (j + 1) (Nat.succ_lt_succ hj) (Nat.succ_lt_succ hji))

/-- No user query appears in the trace of the per-table schema loop when
none appears in the accumulated trace. -/
theorem getSchemaCols_no_user (db : Database) :
    ∀ (ts : List String) (acc : SchemaInfo) (ops : List DbOp),
      (∀ p, DbOp.userQuery p ∉ ops) →
      ∀ p, DbOp.userQuery p ∉ (getSchemaCols db ts acc ops).2 := by
  intro ts
  induction ts with
  | nil => intro acc ops h p; exact h p
  | cons t ts ih =>
    intro acc ops h p
    unfold getSchemaCols
    cases db.describeQ t with
    | error e =>
      intro hmem
      rcases List.mem_append.1 hmem with hmem | hmem
      · exact h p hmem
      · simp at hmem
    | ok cols =>
      refine ih _ _ ?_ p
      intro r hmem
      rcases List.mem_append.1 hmem with hmem | hmem
      · exact h r hmem
      · simp at hmem

/-- No user query appears in the trace of getSchemaInfo: the snapshot is
built from catalog round-trips only. -/
theorem getSchemaInfo_no_user (db : Database) :
    ∀ p, DbOp.userQuery p ∉ (getSchemaInfo db).2 := by
  intro p
  unfold getSchemaInfo
  cases db.listTablesQ with
  | error e => simp
  | ok tables => exact getSchemaCols_no_user db tables [] [DbOp.catalogTables] (by simp) p

/-! ## Claim theorems -/

/-- C1: whenever the trimmed, lowercased query matches a denylist rule,
isSafeQuery rejects with the message of the first rule (in the listed
order) that matches; the hypothesis constrains only the normalized form,
so the verdict is independent of the original casing and of whether the
text also starts with select or with. -/
theorem c1_denylist_first_hit (q : String) (i : Nat) (hi : i < dangerousPatterns.length)
    (hhit : reMatch (dangerousPatterns.get ⟨i, hi⟩).2 (normQ q) = true)
    (hfirst : ∀ j (hj : j < dangerousPatterns.length), j < i →
      reMatch (dangerousPatterns.get ⟨j, hj⟩).2 (normQ q) = false) :
    isSafeQuery q = some (dangerMsg (dangerousPatterns.get ⟨i, hi⟩).1) := by
  have hfind := find_first_hit (fun p => reMatch p.2 (normQ q)) dangerousPatterns i hi hhit hfirst
  unfold isSafeQuery isSafeNorm
  rw [hfind]

/-- Witness for C1: a query that is upper-case and starts with SELECT is
still rejected by the drop-table rule, the first rule of the list. -/
theorem c1_denylist_first_hit_witness :
    0 < dangerousPatterns.length ∧
    isSafeQuery ("SELECT 1; DROP TABLE users") =
      some (dangerMsg ((dangerousPatterns.get ⟨0, by decide⟩).1)) := by
  refine ⟨by decide, c1_denylist_first_hit _ 0 (by decide) (by decide) ?_⟩
  intro j hj hji
  exact absurd hji (Nat.not_lt_zero j)

/-- C2: a query rejected by the policy validator makes ExecuteQuery
return the wrapped rejection naming the violated rule, and the trace of
database round-trips is empty. -/
theorem c2_policy_rejection_no_db (db : Database) (q r : String)
    (h : isSafeQuery q = some r) :
    executeQuery db (some q) = (ToolResult.goError ("unsafe query: " ++ r), []) := by
  simp only [executeQuery, h]

/-- Witness for C2: a concrete denylisted query against the sample
database is rejected with the rule name and no database operation. -/
theorem c2_policy_rejection_no_db_witness :
    executeQuery dbSample (some ("DROP TABLE users")) =
      (ToolResult.goError ("unsafe query: " ++ dangerMsg ("\\bdrop\\s+table\\b")), []) :=
  c2_policy_rejection_no_db dbSample _ _ (by decide)

/-- Lower-casing fixes every character trimmed as whitespace. -/
theorem toLower_of_trimChar (c : Char) (h : goTrimChar c = true) : Char.toLower c = c := by
  have h' : c = ' ' ∨ c = '\t' ∨ c = '\n' ∨ c = '\x0b' ∨ c = '\x0c' ∨ c = '\x0d' := by
    simp only [goTrimChar, Bool.or_eq_true, decide_eq_true_eq] at h
    tauto
  rcases h' with h | h | h | h | h | h <;> subst h <;> decide

/-- Lower-casing a whitespace-only character list leaves it unchanged. -/
theorem map_toLower_of_all_trim :
    ∀ l : List Char, l.all goTrimChar = true → l.map Char.toLower = l := by
  intro l hl
  induction l with
  | nil => rfl
  | cons a t ih =>
    rw [List.all_cons, Bool.and_eq_true] at hl
    rw [List.map_cons, toLower_of_trimChar a hl.1, ih hl.2]

/-- The normalized form of a whitespace-only query is the empty
string. -/
theorem normQ_of_all_space (q : String) (h : q.data.all goTrimChar = true) :
    normQ q = String.mk [] := by
  unfold normQ goToLower goTrimSpace
  simp only [map_toLower_of_all_trim q.data h]
  have hd : q.data.dropWhile goTrimChar = [] := by
    rw [List.dropWhile_eq_nil_iff]
    intro x hx
    exact List.all_eq_true.1 h x hx
  rw [hd]
  rfl

/-- C4: with no denylist rule matching the normalized query, isSafeQuery
allows exactly the queries whose normalized form starts with select or
with, and rejects every other with the distinct not-a-read-query reason;
in particular a whitespace-only query is so rejected, and so is a query
whose leading SQL comment precedes SELECT, because normalization does
not strip comments. -/
theorem c4_allowlist_check :
    (∀ q, (∀ p ∈ dangerousPatterns, reMatch p.2 (normQ q) = false) →
      ((isSafeQuery q = none ↔
          (goHasPre (normQ q) ("select") || goHasPre (normQ q) ("with")) = true) ∧
        ((goHasPre (normQ q) ("select") || goHasPre (normQ q) ("with")) = false →
          isSafeQuery q = some notReadMsg))) ∧
    (∀ q, q.data.all goTrimChar = true → isSafeQuery q = some notReadMsg) ∧
    isSafeQuery ("-- top users\nSELECT * FROM users") = some notReadMsg := by
  refine ⟨?_, ?_, by decide⟩
  · intro q hno
    have hfind : dangerousPatterns.find? (fun p => reMatch p.2 (normQ q)) = none := by
      rw [List.find?_eq_none]
      intro p hp
      simp [hno p hp]
    unfold isSafeQuery isSafeNorm
    rw [hfind]
    constructor
    · constructor
      · intro hall
        by_contra hc
        rw [Bool.not_eq_true] at hc
        rw [if_neg (by simp [hc])] at hall
        exact Option.noConfusion hall
      · intro hc
        rw [if_pos hc]
    · intro hc
      rw [if_neg (by simp [hc])]
  · intro q hq
    unfold isSafeQuery
    rw [normQ_of_all_space q hq]
    decide

/-- Witness for C4: a whitespace-only query is rejected with the
not-a-read-query reason, and a plain select is allowed. -/
theorem c4_allowlist_check_witness :
    isSafeQuery ("   ") = some notReadMsg ∧ isSafeQuery ("select 1") = none :=
  ⟨c4_allowlist_check.2.1 ("   ") (by decide),
    (c4_allowlist_check.1 ("select 1") (by decide)).1.mpr (by decide)⟩

/-- C5: for every query the validator accepts, the first database
round-trip carries exactly the original caller-supplied string, and
every user query in the trace is that original string: the trim and
lower-case normalization touches only the copy used by the checks. -/
theorem c5_original_text_executed (db : Database) (q : String) (h : isSafeQuery q = none) :
    (executeQuery db (some q)).2.head? = some (DbOp.userQuery q) ∧
    (∀ p, DbOp.userQuery p ∈ (executeQuery db (some q)).2 → p = q) := by
  simp only [executeQuery, h]
  cases hrun : db.runQuery q with
  | error e =>
    simp only [execReply]
    by_cases hc : (goContains e ("column") || goContains e ("table")) = true
    · rw [if_pos hc]
      rcases hgs : getSchemaInfo db with ⟨res, ops⟩
      have hops : ∀ p, DbOp.userQuery p ∉ ops := by
        intro p
        have hnu := getSchemaInfo_no_user db p
        rw [hgs] at hnu
        exact hnu
      cases res with
      | error se =>
        simp only [schemaFallback]
        refine ⟨rfl, ?_⟩
        intro p hp
        rcases List.mem_cons.1 hp with hp | hp
        · exact DbOp.userQuery.inj hp
        · exact absurd hp (hops p)
      | ok info =>
        simp only [schemaFallback]
        refine ⟨rfl, ?_⟩
        intro p hp
        rcases List.mem_cons.1 hp with hp | hp
        · exact DbOp.userQuery.inj hp
        · exact absurd hp (hops p)
    · rw [if_neg hc]
      refine ⟨rfl, ?_⟩
      intro p hp
      rcases List.mem_cons.1 hp with hp | hp
      · exact DbOp.userQuery.inj hp
      · simp at hp
  | ok reply =>
    rcases reply with ⟨cols, rows⟩
    simp only [execReply, marshalStep]
    cases hmar : goJsonMarshal (buildResponse cols rows) with
    | error e =>
      refine ⟨rfl, ?_⟩
      intro p hp
      rcases List.mem_cons.1 hp with hp | hp
      · exact DbOp.userQuery.inj hp
      · simp at hp
    | ok s =>
      refine ⟨rfl, ?_⟩
      intro p hp
      rcases List.mem_cons.1 hp with hp | hp
      · exact DbOp.userQuery.inj hp
      · simp at hp

/-- Witness for C5: a query with leading whitespace and upper-case
keywords is sent to the database exactly as supplied. -/
theorem c5_original_text_executed_witness :
    (executeQuery dbSample (some ("  SELECT 1"))).2.head? =
      some (DbOp.userQuery ("  SELECT 1")) :=
  (c5_original_text_executed dbSample ("  SELECT 1") (by decide)).1

/-- C3: for an allowed query, a driver error whose text contains neither
column nor table is surfaced with the raw message alone; one whose text
contains either substring additionally carries the freshly fetched
schema snapshot, and when that fetch itself fails both failures are
reported together; a successful query triggers no catalog round-trip at
all. -/
theorem c3_error_schema_heuristic (db : Database) (q : String) (hsafe : isSafeQuery q = none) :
    (∀ e, db.runQuery q = Except.error e →
      (((goContains e ("column") || goContains e ("table")) = false →
          executeQuery db (some q) =
            (ToolResult.toolError ("Query failed: " ++ e), [DbOp.userQuery q])) ∧
        ((goContains e ("column") || goContains e ("table")) = true →
          (∀ info ops, getSchemaInfo db = (Except.ok info, ops) →
            executeQuery db (some q) =
              (ToolResult.toolError
                ("Query failed: " ++ e ++ "\n\nHere is the schema:\n" ++ marshalSchemaInfo info),
                DbOp.userQuery q :: ops)) ∧
          (∀ se ops, getSchemaInfo db = (Except.error se, ops) →
            executeQuery db (some q) =
              (ToolResult.toolError
                ("Query failed: " ++ e ++ ". Also failed to fetch schema: " ++ se),
                DbOp.userQuery q :: ops))))) ∧
    (∀ cols rows, db.runQuery q = Except.ok (cols, rows) →
      DbOp.catalogTables ∉ (executeQuery db (some q)).2 ∧
      (∀ t, DbOp.catalogColumns t ∉ (executeQuery db (some q)).2)) := by
  constructor
  · intro e hrun
    constructor
    · intro hc
      simp only [executeQuery, hsafe]
      rw [hrun]
      simp only [execReply]
      rw [if_neg (by simp [hc])]
    · intro hc
      constructor
      · intro info ops hgs
        simp only [executeQuery, hsafe]
        rw [hrun]
        simp only [execReply]
        rw [if_pos hc, hgs]
        simp only [schemaFallback]
      · intro se ops hgs
        simp only [executeQuery, hsafe]
        rw [hrun]
        simp only [execReply]
        rw [if_pos hc, hgs]
        simp only [schemaFallback]
  · intro cols rows hrun
    simp only [executeQuery, hsafe]
    rw [hrun]
    simp only [execReply]
    unfold marshalStep
    cases hm : goJsonMarshal (buildResponse cols rows) with
    | ok s => simp
    | error e2 => simp

/-- Witness for C3: a failing query whose error mentions table, against
a database with one table, yields the schema-augmented error and the
catalog round-trips. -/
theorem c3_error_schema_heuristic_witness :
    executeQuery dbErrTable (some ("select 1")) =
      (ToolResult.toolError
        ("Query failed: relation table missing\n\nHere is the schema:\n" ++
          marshalSchemaInfo ([("users", [("id", "integer")])])),
        [DbOp.userQuery ("select 1"), DbOp.catalogTables, DbOp.catalogColumns ("users")]) :=
  (((c3_error_schema_heuristic dbErrTable ("select 1") (by decide)).1
      ("relation table missing") rfl).2 (by decide)).1
    ([("users", [("id", "integer")])])
    ([DbOp.catalogTables, DbOp.catalogColumns ("users")]) rfl

/-- Membership in a map after insertion: the pair was already present,
or it is the inserted key and value. -/
theorem mapInsert_mem {β : Type} (m : List (String × β)) (k0 : String) (v0 : β) (k : String)
    (v : β) (h : (k, v) ∈ mapInsert m k0 v0) : (k, v) ∈ m ∨ (k = k0 ∧ v = v0) := by
  unfold mapInsert at h
  by_cases hany : m.any (fun p => p.1 == k0) = true
  · rw [if_pos hany] at h
    rcases List.mem_map.1 h with ⟨p, hp, he⟩
    by_cases hpk : (p.1 == k0) = true
    · rw [if_pos hpk] at he
      injection he with h1 h2
      exact Or.inr ⟨h1.symm, h2.symm⟩
    · rw [if_neg hpk] at he
      exact Or.inl (he ▸ hp)
  · rw [if_neg hany] at h
    rcases List.mem_append.1 h with h | h
    · exact Or.inl h
    · have he := List.mem_singleton.1 h
      injection he with h1 h2
      exact Or.inr ⟨h1, h2⟩

/-- Every pair accumulated by the row-map fold either came from the
accumulator or is a column paired with its normalized value. -/
theorem rowFold_mem :
    ∀ (l : List (String × GoVal)) (m : List (String × GoVal)) (k : String) (v : GoVal),
      (k, v) ∈ l.foldl (fun m p => mapInsert m p.1 (normalizeVal p.2)) m →
      (k, v) ∈ m ∨ ∃ w, (k, w) ∈ l ∧ v = normalizeVal w := by
  intro l
  induction l with
  | nil => intro m k v h; exact Or.inl h
  | cons a t ih =>
    intro m k v h
    rw [List.foldl_cons] at h
    rcases ih _ k v h with h | ⟨w, hw, hv⟩
    · rcases mapInsert_mem _ _ _ _ _ h with h | ⟨hk, hv⟩
      · exact Or.inl h
      · refine Or.inr ⟨a.2, ?_, hv⟩
        rw [hk]
        simp
    · exact Or.inr ⟨w, List.mem_cons_of_mem a hw, hv⟩

/-- Every entry of a built row map is a declared column paired with the
normalized form of its scanned value. -/
theorem buildRowMap_mem (cols : List String) (vals : List GoVal) (k : String) (v : GoVal)
    (h : (k, v) ∈ buildRowMap cols vals) :
    ∃ w, (k, w) ∈ cols.zip vals ∧ v = normalizeVal w := by
  rcases rowFold_mem _ [] k v h with h | h
  · simp at h
  · exact h

/-- C6: the count of a built response equals the number of accumulated
rows; normalization turns a raw byte value into its text form and fixes
every other driver value; and every entry of every row map is a declared
column paired with the normalized form of its scanned value. -/
theorem c6_value_normalization :
    (∀ cols rows, (buildResponse cols rows).count = rows.length) ∧
    (∀ s, normalizeVal (GoVal.vBytes s) = GoVal.vString s) ∧
    (normalizeVal GoVal.vNull = GoVal.vNull) ∧
    (∀ b, normalizeVal (GoVal.vBool b) = GoVal.vBool b) ∧
    (∀ n, normalizeVal (GoVal.vInt n) = GoVal.vInt n) ∧
    (∀ r f, normalizeVal (GoVal.vFloat r f) = GoVal.vFloat r f) ∧
    (∀ s, normalizeVal (GoVal.vString s) = GoVal.vString s) ∧
    (∀ t, normalizeVal (GoVal.vTime t) = GoVal.vTime t) ∧
    (∀ cols vals k v, (k, v) ∈ buildRowMap cols vals →
      ∃ w, (k, w) ∈ cols.zip vals ∧ v = normalizeVal w) := by
  refine ⟨?_, fun s => rfl, rfl, fun b => rfl, fun n => rfl, fun r f => rfl, fun s => rfl,
    fun t => rfl, buildRowMap_mem⟩
  intro cols rows
  simp [buildResponse]

/-- Witness for C6: one byte-valued row: the count is the row count and
the byte value is normalized to its text form. -/
theorem c6_value_normalization_witness :
    (buildResponse (["a"]) ([[GoVal.vBytes ("hi")]])).count = [[GoVal.vBytes ("hi")]].length ∧
    normalizeVal (GoVal.vBytes ("hi")) = GoVal.vString ("hi") :=
  ⟨c6_value_normalization.1 (["a"]) ([[GoVal.vBytes ("hi")]]),
    c6_value_normalization.2.1 ("hi")⟩

/-- Overwriting an existing key in place leaves the key list of the map
unchanged. -/
theorem map_fst_overwrite {β : Type} (k0 : String) (v0 : β) (m : List (String × β)) :
    (m.map (fun p => if p.1 == k0 then (k0, v0) else p)).map Prod.fst = m.map Prod.fst := by
  induction m with
  | nil => rfl
  | cons a t ih =>
    simp only [List.map_cons, ih]
    congr 1
    by_cases h : (a.1 == k0) = true
    · rw [if_pos h]
      exact (eq_of_beq h).symm
    · rw [if_neg h]

/-- Key list of a map after insertion: unchanged when the key was
present, extended by the key otherwise. -/
theorem mapInsert_map_fst {β : Type} (m : List (String × β)) (k0 : String) (v0 : β) :
    (mapInsert m k0 v0).map Prod.fst =
      if m.any (fun p => p.1 == k0) = true then m.map Prod.fst else m.map Prod.fst ++ [k0] := by
  unfold mapInsert
  by_cases h : m.any (fun p => p.1 == k0) = true
  · rw [if_pos h, if_pos h, map_fst_overwrite]
  · rw [if_neg h, if_neg h, List.map_append]
    rfl

/-- The overwrite test of mapInsert holds exactly when the key is among
the map keys. -/
theorem any_fst_mem {β : Type} (m : List (String × β)) (k : String) :
    (m.any (fun p => p.1 == k) = true) ↔ k ∈ m.map Prod.fst := by
  rw [List.any_eq_true]
  constructor
  · rintro ⟨p, hp, hb⟩
    exact List.mem_map.2 ⟨p, hp, eq_of_beq hb⟩
  · intro h
    rcases List.mem_map.1 h with ⟨p, hp, he⟩
    exact ⟨p, hp, beq_iff_eq.mpr he⟩

/-- Keys of the row-map fold: a key is present exactly when it was in
the accumulator or is one of the folded keys. -/
theorem rowFold_keys_mem :
    ∀ (l : List (String × GoVal)) (m : List (String × GoVal)) (k : String),
      (k ∈ (l.foldl (fun m p => mapInsert m p.1 (normalizeVal p.2)) m).map Prod.fst) ↔
        (k ∈ m.map Prod.fst ∨ k ∈ l.map Prod.fst) := by
  intro l
  induction l with
  | nil => intro m k; simp
  | cons a t ih =>
    intro m k
    rw [List.foldl_cons, ih (mapInsert m a.1 (normalizeVal a.2)), mapInsert_map_fst]
    by_cases h : m.any (fun p => p.1 == a.1) = true
    · rw [if_pos h]
      have hm : a.1 ∈ m.map Prod.fst := (any_fst_mem m a.1).1 h
      simp only [List.map_cons, List.mem_cons]
      constructor
      · rintro (hk | hk)
        · exact Or.inl hk
        · exact Or.inr (Or.inr hk)
      · rintro (hk | hk | hk)
        · exact Or.inl hk
        · refine Or.inl ?_
          rw [hk]
          exact hm
        · exact Or.inr hk
    · rw [if_neg h]
      simp only [List.map_cons, List.mem_cons, List.mem_append, List.mem_singleton]
      tauto

/-- The row-map fold preserves distinctness of the key list. -/
theorem rowFold_keys_nodup :
    ∀ (l : List (String × GoVal)) (m : List (String × GoVal)),
      (m.map Prod.fst).Nodup →
      ((l.foldl (fun m p => mapInsert m p.1 (normalizeVal p.2)) m).map Prod.fst).Nodup := by
  intro l
  induction l with
  | nil => intro m h; exact h
  | cons a t ih =>
    intro m h
    rw [List.foldl_cons]
    refine ih _ ?_
    rw [mapInsert_map_fst]
    by_cases hany : m.any (fun p => p.1 == a.1) = true
    · rw [if_pos hany]
      exact h
    · rw [if_neg hany]
      have hnm : a.1 ∉ m.map Prod.fst := fun hc => hany ((any_fst_mem m a.1).2 hc)
      simp [List.nodup_append, h, hnm]

/-- C7 (amended): for a driver row of one value per declared column, the
built row map has distinct keys and its key set is exactly the set of
declared column names — one entry per distinct name, so duplicate
declared names collapse into a single entry. -/
theorem c7_row_shape (cols : List String) (vals : List GoVal) (h : vals.length = cols.length) :
    ((buildRowMap cols vals).map Prod.fst).Nodup ∧
    (∀ k, k ∈ (buildRowMap cols vals).map Prod.fst ↔ k ∈ cols) := by
  unfold buildRowMap
  constructor
  · exact rowFold_keys_nodup _ [] (by simp)
  · intro k
    rw [rowFold_keys_mem]
    simp only [List.map_nil, List.not_mem_nil, false_or]
    rw [List.map_fst_zip cols vals h.symm.le]

/-- Counterexample for C7 as stated: with duplicate declared column
names the row map has fewer entries than declared columns. -/
theorem c7_counterexample :
    ¬ (∀ r, r ∈ (buildResponse (["a", "a"]) ([[GoVal.vInt 1, GoVal.vInt 2]])).rows →
        r.length = (["a", "a"] : List String).length) := by
  decide

/-- Witness for C7 (amended): a two-column row with distinct names has a
row map with distinct keys. -/
theorem c7_row_shape_witness :
    ([GoVal.vInt 1, GoVal.vInt 2] : List GoVal).length = (["a", "b"] : List String).length ∧
    ((buildRowMap (["a", "b"]) ([GoVal.vInt 1, GoVal.vInt 2])).map Prod.fst).Nodup :=
  ⟨rfl, (c7_row_shape (["a", "b"]) ([GoVal.vInt 1, GoVal.vInt 2]) rfl).1⟩

/-- C8 (amended): DescribeTable serializes exactly the catalog rows of
the named table, in the order the catalog query returns them (ordered by
ordinal position), each as a column/type object; for a table with no
catalog rows the body is the JSON literal null — a successful result,
not an error, but also not an empty array. -/
theorem c8_describe_table (db : Database) (t : String) (cols : List (String × String))
    (h : db.describeQ t = Except.ok cols) :
    describeTable db (some t) =
      (ToolResult.ok (marshalAppendSlice (cols.map jsonColPair)), [DbOp.catalogColumns t]) ∧
    (cols = [] → marshalAppendSlice (cols.map jsonColPair) = "null") := by
  constructor
  · simp only [describeTable, h]
  · intro hc
    subst hc
    rfl

/-- Counterexample for C8 as stated: a table absent from the catalog
yields the body null, which is not the serialization of an empty
sequence of columns. -/
theorem c8_counterexample :
    (describeTable dbGhost (some ("ghost"))).1 = ToolResult.ok ("null") ∧
    ToolResult.ok ("null") ≠ ToolResult.ok (jsonArr []) := by
  decide

/-- Witness for C8 (amended): describing the sample table returns its
one column/type pair and the catalog round-trip. -/
theorem c8_describe_table_witness :
    describeTable dbSample (some ("users")) =
      (ToolResult.ok
        (marshalAppendSlice (([("id", "integer")] : List (String × String)).map jsonColPair)),
        [DbOp.catalogColumns ("users")]) :=
  (c8_describe_table dbSample ("users") ([("id", "integer")]) rfl).1

/-- C9 (amended): when serialization of the response of a successful
allowed query fails, ExecuteQuery discards the marshal error and emits a
text result with empty body — no explicit error reaches the caller. -/
theorem c9_marshal_discard (db : Database) (q e : String) (cols : List String)
    (rows : List (List GoVal))
    (hsafe : isSafeQuery q = none)
    (hrun : db.runQuery q = Except.ok (cols, rows))
    (hmar : goJsonMarshal (buildResponse cols rows) = Except.error e) :
    executeQuery db (some q) = (ToolResult.ok (""), [DbOp.userQuery q]) := by
  simp only [executeQuery, hsafe]
  rw [hrun]
  simp only [execReply]
  unfold marshalStep
  rw [hmar]

/-- Counterexample for C9 as stated: a non-finite float makes the
marshal fail, yet the handler returns a successful empty-bodied text
result rather than an explicit error. -/
theorem c9_counterexample :
    goJsonMarshal (buildResponse (["x"]) ([[GoVal.vFloat ("NaN") false]])) =
      Except.error ("json: unsupported value: NaN") ∧
    executeQuery dbNaN (some ("select x from t")) =
      (ToolResult.ok (""), [DbOp.userQuery ("select x from t")]) :=
  ⟨rfl, by decide⟩

/-- Witness for C9 (amended): the same behaviour derived by applying the
amended theorem at the concrete failing database. -/
theorem c9_marshal_discard_witness :
    executeQuery dbNaN (some ("select 1")) =
      (ToolResult.ok (""), [DbOp.userQuery ("select 1")]) :=
  c9_marshal_discard dbNaN ("select 1") ("json: unsupported value: NaN") (["x"])
    ([[GoVal.vFloat ("NaN") false]]) (by decide) rfl rfl

/-- C10: with zero tables in the public schema the table-name slice is
never appended to and stays nil, so the caller receives the JSON literal
null rather than an empty array. -/
theorem c10_empty_tables_null (db : Database) (h : db.listTablesQ = Except.ok []) :
    listTables db = (ToolResult.ok ("null"), [DbOp.catalogTables]) := by
  simp only [listTables, h]
  rfl

/-- Witness for C10: the empty-schema database yields the null body. -/
theorem c10_empty_tables_null_witness :
    listTables dbGhost = (ToolResult.ok ("null"), [DbOp.catalogTables]) :=
  c10_empty_tables_null dbGhost rfl
